import Mathlib

/-!
Verification of the hapctl-rs credential cache and weight-control client.

This file gives a shallow embedding of the program (src/iam.rs and
src/client.rs) and proves properties of the embedded definitions.

Modelling conventions:
- Monotonic clock instants are natural numbers of seconds; the ambient
  clock read (Instant::now()) is passed explicitly as a parameter.
- A Rust call that can panic is modelled with an explicit CallResult
  type distinguishing an Ok return, an Err return, and a panic.
- The network is modelled by passing the outcome of the outbound
  exchange (FetchOutcome) as a parameter; the shape of the outbound
  request itself is embedded separately as an HttpRequest value.
- The lock-protected cache cell of the iam Client is a plain
  Option Token value threaded through explicit state passing.
-/

namespace Hapctl

/-- Monotonic clock instants, in seconds. -/
abbrev Instant := Nat

/-- Embeds Rust Instant::checked_duration_since: some (self - earlier)
when earlier is not later than self, and none otherwise. -/
def checked_duration_since (self earlier : Instant) : Option Nat :=
  if self < earlier then none else some (self - earlier)

/-- Embeds struct Token (src/iam.rs lines 29-35). -/
structure Token where
  access_token : String
  token_type : String
  refresh_token : String
  expiry : Instant
deriving DecidableEq, Repr

/-- Embeds Token::valid (src/iam.rs lines 54-58):
Instant::now().checked_duration_since(self.expiry).is_none(), with the
clock read passed in as now. -/
def Token.valid (t : Token) (now : Instant) : Bool :=
  (checked_duration_since now t.expiry).isNone

/-- Embeds struct TokenResponse (src/iam.rs lines 60-66). -/
structure TokenResponse where
  access_token : String
  token_type : String
  refresh_token : Option String
  expires_in : Option Nat
deriving DecidableEq, Repr

/-- Embeds the From TokenResponse conversion for Token (src/iam.rs lines
43-52); now is the Instant::now() read taken during conversion. -/
def Token.ofTokenResponse (tr : TokenResponse) (now : Instant) : Token :=
  { access_token := tr.access_token
    token_type := tr.token_type
    refresh_token := tr.refresh_token.getD ("")
    expiry := now + tr.expires_in.getD 1200 }

/-- Result of a Rust call: an Ok return, an Err return through the
Result type, or a panic (unwinding with a message). -/
inductive CallResult (α : Type) where
  | ok (a : α)
  | err (e : String)
  | panicked (msg : String)
deriving DecidableEq, Repr

/-- Outcome of the network exchange performed inside
Client::request_token: the send can fail, reading the body text can
fail, parsing the JSON can fail, or a TokenResponse is parsed. -/
inductive FetchOutcome where
  | sendFailed (e : String)
  | textFailed (e : String)
  | parseFailed (e : String)
  | parsed (tr : TokenResponse)
deriving DecidableEq, Repr

/-- Embeds Client::request_token (src/iam.rs lines 90-111) given the
outcome of the network exchange. The source uses .expect on send, then
.expect on text, then .unwrap on serde_json parsing, so every failure
is a panic carrying the corresponding message; no Err is ever returned. -/
def request_token (o : FetchOutcome) (now : Instant) : CallResult Token :=
  match o with
  | FetchOutcome.sendFailed e => CallResult.panicked ("Get token failed: " ++ e)
  | FetchOutcome.textFailed e => CallResult.panicked ("Getting body text failed: " ++ e)
  | FetchOutcome.parseFailed e => CallResult.panicked ("called Result::unwrap() on an Err value: " ++ e)
  | FetchOutcome.parsed tr => CallResult.ok (Token.ofTokenResponse tr now)

/-- The refresh path of Client::token (src/iam.rs lines 85-87):
*token = Some(self.request_token()); Ok(clone). A panic inside
request_token aborts before the store, leaving the cached cell at its
prior value. Returns (call result, cached cell after, fetch invoked). -/
def refreshStep (cached : Option Token) (now : Instant) (o : FetchOutcome) :
    CallResult Token × Option Token × Bool :=
  match request_token o now with
  | CallResult.ok t => (CallResult.ok t, some t, true)
  | CallResult.err e => (CallResult.err e, cached, true)
  | CallResult.panicked m => (CallResult.panicked m, cached, true)

/-- Embeds Client::token, the get_token operation (src/iam.rs lines
76-88). The Mutex-guarded cell is passed as cached and returned updated;
the Bool records whether request_token was invoked. -/
def Client.tokenFn (cached : Option Token) (now : Instant) (o : FetchOutcome) :
    CallResult Token × Option Token × Bool :=
  match cached with
  | some t =>
    if t.valid now then (CallResult.ok t, some t, false)
    else refreshStep (some t) now o
  | none => refreshStep none now o

/-- Embeds struct Client (src/iam.rs lines 24-27): the api key and the
Mutex-guarded Option Token cell. -/
structure ClientState where
  api_key : String
  cached : Option Token
deriving DecidableEq, Repr

/-- Embeds Client::new (src/iam.rs lines 69-74). -/
def ClientState.new (api_key : String) : ClientState :=
  { api_key := api_key, cached := none }

/-- Embeds the Default construction of Client (src/iam.rs lines
114-126); env models std::env::var of IBMCLOUD_API_KEY, and an absent
or invalid value panics immediately. -/
def ClientState.defaultFromEnv (env : Option String) : CallResult ClientState :=
  match env with
  | some k => CallResult.ok (ClientState.new k)
  | none => CallResult.panicked ("\x27IBMCLOUD_API_KEY\x27 not set or invalid")

/-- UTF-8 encoding of one character as its list of byte values. -/
def utf8Bytes (c : Char) : List Nat :=
  let n := c.toNat
  if n < 128 then [n]
  else if n < 2048 then [192 + n / 64, 128 + n % 64]
  else if n < 65536 then [224 + n / 4096, 128 + (n / 64) % 64, 128 + n % 64]
  else [240 + n / 262144, 128 + (n / 4096) % 64, 128 + (n / 64) % 64, 128 + n % 64]

/-- Uppercase hexadecimal digit for a value below 16. -/
def hexUpper (n : Nat) : Char :=
  if n < 10 then Char.ofNat (48 + n) else Char.ofNat (55 + n)

/-- Embeds the url crate form_urlencoded byte serializer used by
Serializer::append_pair: space becomes a plus sign; digits, letters and
the bytes for asterisk, hyphen, dot and underscore pass through; every
other byte is percent-encoded with uppercase hex. -/
def formSerializeByte (b : Nat) : List Char :=
  if b = 32 then [Char.ofNat 43]
  else if (48 ≤ b ∧ b ≤ 57) ∨ (65 ≤ b ∧ b ≤ 90) ∨ (97 ≤ b ∧ b ≤ 122)
      ∨ b = 42 ∨ b = 45 ∨ b = 46 ∨ b = 95 then [Char.ofNat b]
  else [Char.ofNat 37, hexUpper (b / 16), hexUpper (b % 16)]

/-- form_urlencoded serialization of one string (its UTF-8 bytes). -/
def formEncodeStr (s : String) : String :=
  String.mk (((s.data.map utf8Bytes).flatten.map formSerializeByte).flatten)

/-- Embeds form_urlencoded Serializer append_pair and finish over the
list of pairs appended (src/iam.rs lines 91-94). -/
def serializerFinish (pairs : List (String × String)) : String :=
  String.intercalate ("&")
    (pairs.map (fun p => formEncodeStr p.1 ++ "=" ++ formEncodeStr p.2))

/-- An HTTP request as the code builds it. -/
structure HttpRequest where
  method : String
  url : String
  headers : List (String × String)
  body : String
deriving DecidableEq, Repr

/-- Embeds the request built by Client::request_token (src/iam.rs lines
96-104): a POST to the fixed identity-token endpoint with the fixed
Basic Authorization header, Accept and Content-Type headers, and the
form-encoded grant_type and apikey pairs as the body. -/
def buildTokenRequest (api_key : String) : HttpRequest :=
  { method := "POST"
    url := "https://iam.cloud.ibm.com/identity/token"
    headers := [("Authorization", "Basic Yng6Yng="),
                ("Accept", "application/json"),
                ("Content-Type", "application/x-www-form-urlencoded")]
    body := serializerFinish [("grant_type", "urn:ibm:params:oauth:grant-type:apikey"),
                              ("apikey", api_key)] }

/-- The outbound requests of one Client::request_token invocation: the
single POST built above (the source sends exactly once per call). -/
def requestTokenRequests (api_key : String) : List HttpRequest :=
  [buildTokenRequest api_key]

/-- Embeds Rust str::split for a one-character separator: the list of
parts between occurrences of the separator, as character lists. -/
def rustSplit (sep : Char) : List Char → List (List Char)
  | [] => [[]]
  | c :: cs =>
    let r := rustSplit sep cs
    if c = sep then [] :: r
    else (c :: r.headD []) :: r.tail

/-- server_name.split on the slash, collected, as in get_weight and
set_weight (src/client.rs lines 52 and 76). -/
def serverParts (s : String) : List String :=
  (rustSplit (Char.ofNat 47) s.data).map String.mk

/-- Endpoint constant DEFAULT_ENDPOINT from src/client.rs line 9. -/
def DEFAULT_ENDPOINT : String := "https://xenobuilds.mattbuilt.com"

/-- Endpoint constant DEFAULT_EU_ENDPOINT from src/client.rs line 10. -/
def DEFAULT_EU_ENDPOINT : String := "https://hapctl-eu.kp-ops.net"

/-- Does pat occur at the start of s (character lists)? -/
def startsWithL : List Char → List Char → Bool
  | [], _ => true
  | _ :: _, [] => false
  | p :: ps, c :: cs => if p = c then startsWithL ps cs else false

/-- Does pat occur at some position of s? Together with startsWithL this
embeds Rust str::contains for an ASCII pattern (byte-substring search
coincides with character-substring search for ASCII patterns). -/
def containsAt (pat : List Char) : List Char → Bool
  | [] => startsWithL pat []
  | c :: cs => startsWithL pat (c :: cs) || containsAt pat cs

/-- Embeds servername.contains(pattern) from src/client.rs line 38. -/
def strContains (s pat : String) : Bool :=
  containsAt pat.data s.data

/-- Embeds the weight-control struct Client (src/client.rs lines 29-31). -/
structure WClient where
  endpoint : String
deriving DecidableEq, Repr

/-- Embeds the weight-control Client::new (src/client.rs lines 33-49). -/
def WClient.new (servername : String) (endpoint : Option String) : WClient :=
  match endpoint with
  | some e => { endpoint := e }
  | none =>
    if strContains servername ("eu-de") then { endpoint := DEFAULT_EU_ENDPOINT }
    else { endpoint := DEFAULT_ENDPOINT }

/-- Errors surfaced by get_weight and set_weight: the server-name
validation error, or an error from the token call (the question-mark
propagation on line 57 and line 81 of src/client.rs). -/
inductive WError where
  | invalidServerName
  | tokenError (m : String)
deriving DecidableEq, Repr

/-- Observable effects of one weight call: obtaining a token from the
iam client, and sending an HTTP request. -/
inductive WAction where
  | fetchToken
  | httpRequest (r : HttpRequest)
deriving DecidableEq, Repr

/-- Lowercase hexadecimal digit for a value below 16. -/
def hexLower (n : Nat) : Char :=
  if n < 10 then Char.ofNat (48 + n) else Char.ofNat (87 + n)

/-- serde_json escaping of one character inside a JSON string literal. -/
def jsonEscapeChar (c : Char) : List Char :=
  let n := c.toNat
  if n = 34 then [Char.ofNat 92, Char.ofNat 34]
  else if n = 92 then [Char.ofNat 92, Char.ofNat 92]
  else if n = 8 then [Char.ofNat 92, Char.ofNat 98]
  else if n = 9 then [Char.ofNat 92, Char.ofNat 116]
  else if n = 10 then [Char.ofNat 92, Char.ofNat 110]
  else if n = 12 then [Char.ofNat 92, Char.ofNat 102]
  else if n = 13 then [Char.ofNat 92, Char.ofNat 114]
  else if n < 32 then [Char.ofNat 92, Char.ofNat 117, Char.ofNat 48, Char.ofNat 48,
                       hexLower (n / 16), hexLower (n % 16)]
  else [c]

/-- serde_json serialization of SetWeightRequest (src/client.rs lines
23-27 and 87-92): a JSON object with the weight and reason fields in
declaration order. -/
def jsonSetWeight (weight : Nat) (reason : String) : String :=
  "\x7b\"weight\":" ++ toString weight ++ ",\"reason\":\"" ++
    String.mk ((reason.data.map jsonEscapeChar).flatten) ++ "\"\x7d"

/-- Embeds Client::get_weight (src/client.rs lines 51-73). tok models
the result of the token call on line 57 and resp the response body of
the GET. Returns the call result and the list of actions performed. -/
def get_weight (endpoint server_name : String) (tok : Except String Token)
    (resp : String) : Except WError String × List WAction :=
  let parts := serverParts server_name
  if parts.length ≠ 2 then (Except.error WError.invalidServerName, [])
  else
    match tok with
    | Except.error m => (Except.error (WError.tokenError m), [WAction.fetchToken])
    | Except.ok t =>
      let uri := endpoint ++ "/v1/backends/" ++ parts.getD 0 ("") ++
        "/servers/" ++ parts.getD 1 ("") ++ "/weight"
      (Except.ok resp,
       [WAction.fetchToken,
        WAction.httpRequest
          { method := "GET", url := uri,
            headers := [("Authorization", "Bearer " ++ t.access_token)],
            body := "" }])

/-- Embeds Client::set_weight (src/client.rs lines 75-105). tok models
the result of the token call on line 81 and resp the response body of
the POST. Returns the call result and the list of actions performed. -/
def set_weight (endpoint server_name : String) (weight : Nat) (reason : String)
    (tok : Except String Token) (resp : String) :
    Except WError String × List WAction :=
  let parts := serverParts server_name
  if parts.length ≠ 2 then (Except.error WError.invalidServerName, [])
  else
    match tok with
    | Except.error m => (Except.error (WError.tokenError m), [WAction.fetchToken])
    | Except.ok t =>
      let uri := endpoint ++ "/v1/backends/" ++ parts.getD 0 ("") ++
        "/servers/" ++ parts.getD 1 ("") ++ "/weight"
      (Except.ok resp,
       [WAction.fetchToken,
        WAction.httpRequest
          { method := "POST", url := uri,
            headers := [("Authorization", "Bearer " ++ t.access_token),
                        ("Content-Type", "application/json")],
            body := jsonSetWeight weight reason }])

/-- Decidable equality for Except results, for evaluating concrete
weight-call results. -/
instance {ε α : Type} [DecidableEq ε] [DecidableEq α] : DecidableEq (Except ε α) :=
  fun a b =>
    match a, b with
    | Except.ok x, Except.ok y =>
      if h : x = y then Decidable.isTrue (by subst h; rfl)
      else Decidable.isFalse (fun hc => h (by cases hc; rfl))
    | Except.ok _, Except.error _ => Decidable.isFalse (fun hc => Except.noConfusion hc)
    | Except.error _, Except.ok _ => Decidable.isFalse (fun hc => Except.noConfusion hc)
    | Except.error x, Except.error y =>
      if h : x = y then Decidable.isTrue (by subst h; rfl)
      else Decidable.isFalse (fun hc => h (by cases hc; rfl))

/-- A sample valid-shaped token used for concrete instantiations. -/
def sampleToken : Token :=
  { access_token := "a", token_type := "Bearer", refresh_token := "", expiry := 100 }

/-- Claim C2: Token.valid returns true iff the current monotonic time is
strictly before the expiry instant; at a time exactly equal to expiry it
returns false. -/
theorem claim_C2_valid_iff_now_lt_expiry (t : Token) (now : Instant) :
    (t.valid now = true ↔ now < t.expiry) ∧ t.valid t.expiry = false := by
  constructor
  · unfold Token.valid checked_duration_since
    by_cases h : now < t.expiry
    · simp [h]
    · simp [h]
  · unfold Token.valid checked_duration_since
    simp

/-- Claim C3: the Token built from a provider response has expiry equal
to the construction-time clock reading plus expires_in when present and
plus 1200 when absent; an absent refresh_token becomes the empty string
and a present one is copied; access_token and token_type are copied
through unchanged with no validation. -/
theorem claim_C3_ofTokenResponse_fields (tr : TokenResponse) (now : Instant) :
    (∀ s, tr.expires_in = some s → (Token.ofTokenResponse tr now).expiry = now + s) ∧
    (tr.expires_in = none → (Token.ofTokenResponse tr now).expiry = now + 1200) ∧
    (∀ r, tr.refresh_token = some r → (Token.ofTokenResponse tr now).refresh_token = r) ∧
    (tr.refresh_token = none → (Token.ofTokenResponse tr now).refresh_token = "") ∧
    (Token.ofTokenResponse tr now).access_token = tr.access_token ∧
    (Token.ofTokenResponse tr now).token_type = tr.token_type := by
  refine ⟨fun s hs => ?_, fun hn => ?_, fun r hr => ?_, fun hn => ?_, rfl, rfl⟩ <;>
    simp [Token.ofTokenResponse, *]

/-- Concrete instantiation of claim C3 at a provider response omitting
both optional fields and carrying an empty access token. -/
theorem claim_C3_witness :
    (Token.ofTokenResponse
      { access_token := "", token_type := "Bearer",
        refresh_token := none, expires_in := none } 100).expiry = 100 + 1200 ∧
    (Token.ofTokenResponse
      { access_token := "", token_type := "Bearer",
        refresh_token := none, expires_in := none } 100).refresh_token = "" :=
  ⟨(claim_C3_ofTokenResponse_fields _ 100).2.1 rfl,
   (claim_C3_ofTokenResponse_fields _ 100).2.2.2.1 rfl⟩

/-- Claim C1 as stated is false at this input: with an empty cache and a
transport failure, Client::token does not return the transport error
through the Result; it panics with the expect message. -/
theorem claim_C1_counterexample :
    (Client.tokenFn none 0 (FetchOutcome.sendFailed ("connection refused"))).1 =
      CallResult.panicked ("Get token failed: connection refused") ∧
    (Client.tokenFn none 0 (FetchOutcome.sendFailed ("connection refused"))).1 ≠
      CallResult.err ("connection refused") := by
  constructor
  · rfl
  · decide

/-- Claim C1 amended: when the fetch performed inside Client::token
fails, the call panics with the fetch panic message (the underlying
error is not returned through the Result), and the cached token field
is left exactly at its pre-call value: an existing, possibly expired,
cached token is neither cleared nor replaced. -/
theorem claim_C1_amended_panic_preserves_cache (cached : Option Token) (now : Instant)
    (o : FetchOutcome) (m : String)
    (hmiss : ∀ t, cached = some t → t.valid now = false)
    (hfail : request_token o now = CallResult.panicked m) :
    Client.tokenFn cached now o = (CallResult.panicked m, cached, true) := by
  cases cached with
  | none => simp [Client.tokenFn, refreshStep, hfail]
  | some t =>
    have hv := hmiss t rfl
    simp [Client.tokenFn, hv, refreshStep, hfail]

/-- Concrete instantiation of amended claim C1: an expired cached token
survives a failed refresh untouched, and the call panics. -/
theorem claim_C1_witness :
    Client.tokenFn
      (some { access_token := "tok", token_type := "Bearer",
              refresh_token := "", expiry := 5 }) 10
      (FetchOutcome.sendFailed ("boom")) =
    (CallResult.panicked ("Get token failed: boom"),
     some { access_token := "tok", token_type := "Bearer",
            refresh_token := "", expiry := 5 }, true) :=
  claim_C1_amended_panic_preserves_cache _ 10 _ _
    (by intro t ht; cases ht; rfl) rfl

/-- Claim C4: with a cached token valid at call time, get_token returns
that token without invoking the fetch and without modifying the cache;
two sequential calls against such a cache return identical tokens with
zero fetches. -/
theorem claim_C4_cache_hit_no_fetch (t : Token) (now1 now2 : Instant)
    (o1 o2 : FetchOutcome)
    (h1 : t.valid now1 = true) (h2 : t.valid now2 = true) :
    Client.tokenFn (some t) now1 o1 = (CallResult.ok t, some t, false) ∧
    Client.tokenFn (Client.tokenFn (some t) now1 o1).2.1 now2 o2 =
      (CallResult.ok t, some t, false) := by
  have e1 : Client.tokenFn (some t) now1 o1 = (CallResult.ok t, some t, false) := by
    simp [Client.tokenFn, h1]
  refine ⟨e1, ?_⟩
  rw [e1]
  simp [Client.tokenFn, h2]

/-- Concrete instantiation of claim C4 on a pre-seeded valid token. -/
theorem claim_C4_witness :
    Client.tokenFn (some sampleToken) 0 (FetchOutcome.sendFailed ("down")) =
      (CallResult.ok sampleToken, some sampleToken, false) ∧
    Client.tokenFn
        (Client.tokenFn (some sampleToken) 0 (FetchOutcome.sendFailed ("down"))).2.1
        1 (FetchOutcome.sendFailed ("down")) =
      (CallResult.ok sampleToken, some sampleToken, false) :=
  claim_C4_cache_hit_no_fetch sampleToken 0 1 _ _ (by decide) (by decide)

/-- Claim C5: on a cache miss (empty cache or invalid cached token), a
successful get_token call invokes the fetch exactly once, stores the
fetched token wholesale into the cache, and returns it. -/
theorem claim_C5_cache_miss_fetches_once (cached : Option Token) (now : Instant)
    (tr : TokenResponse)
    (hmiss : ∀ t, cached = some t → t.valid now = false) :
    Client.tokenFn cached now (FetchOutcome.parsed tr) =
      (CallResult.ok (Token.ofTokenResponse tr now),
       some (Token.ofTokenResponse tr now), true) := by
  cases cached with
  | none => simp [Client.tokenFn, refreshStep, request_token]
  | some t => simp [Client.tokenFn, hmiss t rfl, refreshStep, request_token]

/-- Concrete instantiation of claim C5 on an empty cache. -/
theorem claim_C5_witness :
    Client.tokenFn none 7
      (FetchOutcome.parsed
        { access_token := "x", token_type := "Bearer",
          refresh_token := none, expires_in := some 3600 }) =
      (CallResult.ok
        (Token.ofTokenResponse
          { access_token := "x", token_type := "Bearer",
            refresh_token := none, expires_in := some 3600 } 7),
       some (Token.ofTokenResponse
          { access_token := "x", token_type := "Bearer",
            refresh_token := none, expires_in := some 3600 } 7), true) :=
  claim_C5_cache_miss_fetches_once none 7 _ (fun _ ht => Option.noConfusion ht)

/-- Claim C7: request_token issues exactly one POST to the fixed
identity-token endpoint, with Authorization Basic, Accept and
Content-Type headers, and a URL-form-encoded body of the fixed
grant_type value and the configured api key. -/
theorem claim_C7_request_shape (key : String) :
    requestTokenRequests key = [buildTokenRequest key] ∧
    (requestTokenRequests key).length = 1 ∧
    (buildTokenRequest key).method = "POST" ∧
    (buildTokenRequest key).url = "https://iam.cloud.ibm.com/identity/token" ∧
    (buildTokenRequest key).headers =
      [("Authorization", "Basic Yng6Yng="),
       ("Accept", "application/json"),
       ("Content-Type", "application/x-www-form-urlencoded")] ∧
    (buildTokenRequest key).body =
      "grant_type=urn%3Aibm%3Aparams%3Aoauth%3Agrant-type%3Aapikey&apikey=" ++
        formEncodeStr key :=
  ⟨rfl, rfl, rfl, rfl, rfl, rfl⟩

/-- Claim C8: with the api-key environment variable absent, the Default
construction of the iam Client fails immediately with a human-readable
panic message and produces no client; with the key present it succeeds
with an empty cache. -/
theorem claim_C8_missing_key_fails_construction :
    ClientState.defaultFromEnv none =
      CallResult.panicked ("\x27IBMCLOUD_API_KEY\x27 not set or invalid") ∧
    (∀ c : ClientState, ClientState.defaultFromEnv none ≠ CallResult.ok c) ∧
    (∀ k : String, ClientState.defaultFromEnv (some k) =
      CallResult.ok { api_key := k, cached := none }) :=
  ⟨rfl, fun _ h => CallResult.noConfusion h, fun _ => rfl⟩

/-- startsWithL decides the list-prefix relation. -/
theorem startsWithL_iff (pat s : List Char) :
    startsWithL pat s = true ↔ pat <+: s := by
  induction pat generalizing s with
  | nil => simp [startsWithL]
  | cons p ps ih =>
    cases s with
    | nil => simp [startsWithL]
    | cons c cs =>
      by_cases hpc : p = c
      · subst hpc
        simp [startsWithL, List.cons_prefix_cons, ih]
      · simp [startsWithL, hpc, List.cons_prefix_cons]

/-- containsAt decides occurrence of pat as a prefix of some suffix. -/
theorem containsAt_iff (pat s : List Char) :
    containsAt pat s = true ↔ ∃ t, pat <+: t ∧ t <:+ s := by
  induction s with
  | nil =>
    simp only [containsAt, startsWithL_iff]
    constructor
    · intro h
      exact ⟨[], h, List.suffix_rfl⟩
    · rintro ⟨t, hpt, hts⟩
      rw [List.suffix_nil.mp hts] at hpt
      exact hpt
  | cons c cs ih =>
    simp only [containsAt, Bool.or_eq_true, startsWithL_iff, ih]
    constructor
    · rintro (h | ⟨t, hpt, hts⟩)
      · exact ⟨c :: cs, h, List.suffix_rfl⟩
      · exact ⟨t, hpt, hts.trans (List.suffix_cons c cs)⟩
    · rintro ⟨t, hpt, hts⟩
      rcases List.suffix_cons_iff.mp hts with h | h
      · exact Or.inl (h ▸ hpt)
      · exact Or.inr ⟨t, hpt, h⟩

/-- strContains decides the substring (infix) relation on the
underlying character lists. -/
theorem strContains_iff_infix (s pat : String) :
    strContains s pat = true ↔ pat.data <:+: s.data := by
  rw [strContains, containsAt_iff, List.infix_iff_prefix_suffix]

/-- Claim C9: a server name whose split on the slash does not have
exactly two parts makes both get_weight and set_weight fail with the
invalid-server-name error before any token fetch or network request;
a name with exactly two parts (empty parts included) passes this
validation in both operations. -/
theorem claim_C9_servername_validation (ep n : String) (w : Nat) (reason : String)
    (tok : Except String Token) (resp : String) :
    ((serverParts n).length ≠ 2 →
        get_weight ep n tok resp = (Except.error WError.invalidServerName, []) ∧
        set_weight ep n w reason tok resp =
          (Except.error WError.invalidServerName, [])) ∧
    ((serverParts n).length = 2 →
        (get_weight ep n tok resp).1 ≠ Except.error WError.invalidServerName ∧
        (set_weight ep n w reason tok resp).1 ≠
          Except.error WError.invalidServerName) := by
  constructor
  · intro h
    constructor <;> simp [get_weight, set_weight, h]
  · intro h
    constructor <;>
      [simp only [get_weight, h]; simp only [set_weight, h]] <;>
      cases tok <;> simp

/-- Concrete instantiation of claim C9: three parts are rejected with
no actions, two parts pass validation. -/
theorem claim_C9_witness :
    get_weight ("E") ("a/b/c") (Except.ok sampleToken) ("body") =
      (Except.error WError.invalidServerName, []) ∧
    (get_weight ("E") ("a/b") (Except.ok sampleToken) ("body")).1 ≠
      Except.error WError.invalidServerName :=
  ⟨((claim_C9_servername_validation ("E") ("a/b/c") 1 ("r")
      (Except.ok sampleToken) ("body")).1 (by decide)).1,
   ((claim_C9_servername_validation ("E") ("a/b") 1 ("r")
      (Except.ok sampleToken) ("body")).2 (by decide)).1⟩

/-- Claim C10: the weight-control client endpoint is chosen
deterministically at construction: an explicit endpoint is used
verbatim; otherwise the EU endpoint is selected iff the server name
contains the substring eu-de, and the default endpoint otherwise. -/
theorem claim_C10_endpoint_selection (s e : String) :
    (WClient.new s (some e)).endpoint = e ∧
    ((WClient.new s none).endpoint = DEFAULT_EU_ENDPOINT ↔
      ("eu-de").data <:+: s.data) ∧
    ((WClient.new s none).endpoint = DEFAULT_ENDPOINT ↔
      ¬ ("eu-de").data <:+: s.data) := by
  have hne : DEFAULT_ENDPOINT ≠ DEFAULT_EU_ENDPOINT := by decide
  have hne2 : DEFAULT_EU_ENDPOINT ≠ DEFAULT_ENDPOINT := fun h => hne h.symm
  refine ⟨rfl, ?_, ?_⟩ <;>
    rw [← strContains_iff_infix] <;>
    by_cases h : strContains s ("eu-de") = true <;>
    simp [WClient.new, h, hne, hne2]

end Hapctl
